import Mathlib

/-!
# Verification of the guix.sigs commit-policy checker

Shallow embedding of `.github/workflows/check.py`: a policy gate that
classifies the files touched by one commit into attestation groups,
builder-key files and ignored paths, and then verifies each attestation
against its builder's key while accounting for touched keys.

Python strings are modelled as Lean `String` (lists of characters);
the two regular expressions of the source are embedded as executable
matchers over `List Char` with Python `re` semantics (`.` matches any
character except a newline, `$` also matches just before a final
newline); the gnupg library is an external capability and is modelled
by an environment record, with the keyring of the default gnupg home
directory (the source constructs `gnupg.GPG()` without `gnupghome`)
threaded explicitly as mutable state shared by all attestations.
-/

namespace GuixSigs

/-- Python `str.split(sep)` for a one-character separator, on the
character list of the string: splits at every occurrence of `sep`,
keeping empty segments, and returns one more segment than there are
separators. -/
def splitOnChar (sep : Char) : List Char → List (List Char)
  | [] => [[]]
  | c :: cs =>
    if c = sep then [] :: splitOnChar sep cs
    else
      match splitOnChar sep cs with
      | [] => [[c]]
      | p :: ps => (c :: p) :: ps

/-- Python `str.split(sep)` as a function on strings. -/
def pySplit (sep : Char) (s : String) : List String :=
  (splitOnChar sep s.data).map String.mk

/-- Python `$` in `re.match` also matches just before one final newline:
full-match against `X$` succeeds on `s` iff `X` full-matches `s` with at
most one trailing `'\n'` removed. -/
def dropFinalNewline (cs : List Char) : List Char :=
  if cs.getLast? = some '\n' then cs.dropLast else cs

/-- The subpattern `[^/]+/[^/]+/[^/]+` of `check.py` line 68, fully
matching `A` iff `A` consists of exactly three nonempty `'/'`-free
segments separated by `'/'`. -/
def isSegs3 (A : List Char) : Bool :=
  (splitOnChar '/' A).length == 3 && (splitOnChar '/' A).all (fun p => !p.isEmpty)

/-- Group 1 of the attestation pattern of `check.py` line 68:
`[^/]+/[^/]+/[^/]+.SHA256SUMS` — note the unescaped `.`, which in
Python `re` matches any character except `'\n'`, not only a literal
dot. The decomposition is forced: the literal `SHA256SUMS` is the last
ten characters, the wildcard the character before it. -/
def matchesAttCore (cs : List Char) : Bool :=
  let n := cs.length
  decide (11 ≤ n) &&
  cs.drop (n - 10) == "SHA256SUMS".data &&
  (match cs.get? (n - 11) with
   | some c => !(c == '\n')
   | none => false) &&
  isSegs3 (cs.take (n - 11))

/-- Full match of the attestation pattern
`^([^/]+/[^/]+/[^/]+.SHA256SUMS)(|.asc)$` (`check.py` line 68) against a
character list without its optional final newline. The alternation
`(|.asc)` is either empty or one non-newline wildcard character followed
by the literal `asc`. -/
def matchesAtt (cs : List Char) : Bool :=
  matchesAttCore cs ||
  (let n := cs.length
   decide (4 ≤ n) &&
   cs.drop (n - 3) == "asc".data &&
   (match cs.get? (n - 4) with
    | some c => !(c == '\n')
    | none => false) &&
   matchesAttCore (cs.take (n - 4)))

/-- `re.match(attestation_pattern, file)` of `check.py` line 69, as a
Boolean on the file path. -/
def reMatchAtt (s : String) : Bool :=
  matchesAtt (dropFinalNewline s.data)

/-- Tail of the builder-key pattern after the literal `builder-keys/`:
`[^/]+.asc` with the unescaped wildcard `.` before the literal `asc`.
`R` must be a nonempty `'/'`-free segment, one non-newline character,
then `asc`. -/
def matchesKeyCore (R : List Char) : Bool :=
  let n := R.length
  decide (5 ≤ n) &&
  R.drop (n - 3) == "asc".data &&
  (match R.get? (n - 4) with
   | some c => !(c == '\n')
   | none => false) &&
  (R.take (n - 4)).all (fun c => !(c == '/'))

/-- Full match of the builder-key pattern `^(builder-keys/[^/]+.asc)$`
(`check.py` line 81) against a character list without its optional
final newline. -/
def matchesKey (cs : List Char) : Bool :=
  "builder-keys/".data.isPrefixOf cs && matchesKeyCore (cs.drop 13)

/-- `re.match(builder_key_pattern, file)` of `check.py` line 82, as a
Boolean on the file path. -/
def reMatchKey (s : String) : Bool :=
  matchesKey (dropFinalNewline s.data)

/-- The ignore list of `check.py` line 64. -/
def ignoredPrefixes : List String :=
  ["README.md", "ERRATA.md", "contrib/", ".github/"]

/-- `any(file.startswith(x) for x in [...])` of `check.py` line 64. -/
def isIgnored (file : String) : Bool :=
  ignoredPrefixes.any (fun p => p.data.isPrefixOf file.data)

/-- Python `str.removesuffix(suf)`: drop `suf` from the end when it is a
suffix, otherwise return the string unchanged (`check.py` line 74). -/
def removeSuffix (s : String) (suf : String) : String :=
  if suf.data.isSuffixOf s.data then String.mk (s.data.take (s.data.length - suf.data.length))
  else s

/-- `os.path.basename` on a POSIX path: everything after the last `'/'`
(`check.py` line 78). -/
def basename (s : String) : String :=
  String.mk ((splitOnChar '/' s.data).getLastD [])

/-- Python `att.split('/')[1]` raises `IndexError` when the index is out
of range; indexing is modelled by `List.get?`. -/
def pyIndex (l : List α) (n : Nat) : Option α :=
  l.get? n

/-- The expected key path `builder-keys/<builder>.asc` derived from an
attestation stem by taking its second `'/'`-segment (`check.py`
lines 17–18); `none` when `att.split('/')[1]` would raise `IndexError`. -/
def derivedKey (att : String) : Option String :=
  (pyIndex (splitOnChar '/' att.data) 1).map
    (fun b => "builder-keys/" ++ String.mk b ++ ".asc")

/-- Every way a run of `check.py` terminates unsuccessfully. The
`fatal_error` calls are modelled by constructors carrying exactly the
data their message interpolates (external gnupg status strings elided);
`pyValueError` and `pyIndexError` model uncaught Python exceptions, not
`fatal_error` diagnostics. -/
inductive RunErr where
  /-- Uncaught `ValueError` from `status, file = touched_file.split('\t')`
  when the line does not have exactly one tab (`check.py` line 61). -/
  | pyValueError (line : String)
  /-- Uncaught `IndexError` from `att.split('/')[1]` (`check.py` line 17). -/
  | pyIndexError
  /-- `check.py` line 72: attestation file status is not `A`. -/
  | invalidAttStatus (status file : String)
  /-- `check.py` line 85: builder-key file status is not `A` or `M`. -/
  | invalidKeyStatus (status file : String)
  /-- `check.py` line 89: default-deny, unknown touched file. -/
  | unknownFile (file : String)
  /-- `check.py` line 94: group basenames are not exactly the pair. -/
  | incompleteGroup (path : String)
  /-- `check.py` line 25: builder key file missing on disk. -/
  | keyNotFound (att key : String)
  /-- `check.py` line 28: key file not pure ASCII. The source message is
  the literal `"All files must be in ascii format. Make sure to pass
  --armor to gpg. File: {file}"` (not an f-string), so no data is
  interpolated. -/
  | malformedKey
  /-- `check.py` line 33: `import_result.returncode != 0`. -/
  | keyImportFailed (key : String)
  /-- `check.py` line 36: imported-key count is not one, or some key was
  not imported. -/
  | keyImportCount (key : String) (count notImported : Nat)
  /-- `check.py` line 42: attestation manifest missing on disk. The
  source message is the constant `"File does not exist"`. -/
  | manifestNotFound
  /-- `check.py` line 47: signature does not verify. -/
  | sigInvalid (att key : String)
  /-- `check.py` line 50: number of signature records is not one. -/
  | sigCount (att key : String) (n : Nat)
  /-- `check.py` line 53: touched builder keys never consumed by an
  attestation. -/
  | orphanKeys (keys : List String)
  deriving DecidableEq, Repr

/-- The exact argument of `fatal_error` at `check.py` line 42: a
constant string that names no file. -/
def manifestNotFoundMessage : String := "File does not exist"

/-- `pat` occurs contiguously in `hay`, by scanning every tail. -/
def listInfix (pat : List Char) : List Char → Bool
  | [] => pat.isEmpty
  | c :: cs => pat.isPrefixOf (c :: cs) || listInfix pat cs

/-- Substring test: `pat` occurs contiguously in `hay`. -/
def containsStr (hay pat : String) : Bool :=
  listInfix pat.data hay.data

/-- State of the classification loop of `check_touched_files`:
`attestations` is the insertion-ordered dict from path stems to the
list of recorded basenames, `builderKeys` the set of touched key paths
(modelled as a duplicate-free list in insertion order). -/
structure ClassifyState where
  attestations : List (String × List String)
  builderKeys : List String
  deriving DecidableEq, Repr

/-- `attestations[path].append(basename)` with
`if path not in attestations: attestations[path] = list()`
(`check.py` lines 75–78). -/
def addToGroup : List (String × List String) → String → String → List (String × List String)
  | [], p, b => [(p, [b])]
  | (q, fs) :: rest, p, b =>
    if q = p then (q, fs ++ [b]) :: rest
    else (q, fs) :: addToGroup rest p b

/-- `builder_keys.add(file)` on the set-as-list (`check.py` line 87). -/
def insertKey (l : List String) (k : String) : List String :=
  if k ∈ l then l else l ++ [k]

/-- The body of the classification loop after the tab split: one touched
`(status, file)` pair against the rules of `check.py` lines 64–89,
first match wins. -/
def classifyPair (st : ClassifyState) (status file : String) : Except RunErr ClassifyState :=
  if isIgnored file then .ok st
  else if reMatchAtt file then
    if status = "A" then
      let path := removeSuffix file ".asc"
      .ok { st with attestations := addToGroup st.attestations path (basename file) }
    else .error (.invalidAttStatus status file)
  else if reMatchKey file then
    if status = "A" ∨ status = "M" then
      .ok { st with builderKeys := insertKey st.builderKeys file }
    else .error (.invalidKeyStatus status file)
  else .error (.unknownFile file)

/-- One iteration of the loop of `check_touched_files`, including the
tab split `status, file = touched_file.split('\t')` of `check.py`
line 61, which raises `ValueError` unless the split has exactly two
parts. -/
def classifyStep (st : ClassifyState) (line : String) : Except RunErr ClassifyState :=
  match pySplit '\t' line with
  | [status, file] => classifyPair st status file
  | _ => .error (.pyValueError line)

/-- The classification loop over all touched lines. -/
def classifyLoop (st : ClassifyState) : List String → Except RunErr ClassifyState
  | [] => .ok st
  | l :: ls =>
    match classifyStep st l with
    | .error e => .error e
    | .ok st' => classifyLoop st' ls

/-- The two basenames every attestation group must consist of
(`check.py` line 93). -/
def requiredPair : List String :=
  ["noncodesigned.SHA256SUMS", "noncodesigned.SHA256SUMS.asc"]

/-- Python string comparison: lexicographic on Unicode code points. -/
def pyStrLe : List Char → List Char → Bool
  | [], _ => true
  | _ :: _, [] => false
  | c :: cs, d :: ds =>
    if c.val < d.val then true
    else if d.val < c.val then false
    else pyStrLe cs ds

/-- Insert into a `pyStrLe`-sorted list, keeping it sorted. -/
def pyInsert (x : String) : List String → List String
  | [] => [x]
  | y :: ys => if pyStrLe x.data y.data then x :: y :: ys else y :: pyInsert x ys

/-- Python `sorted` on a list of strings: the sorted permutation of the
input under code-point-lexicographic comparison (insertion sort; since
the comparison is a total order and equal strings are identical, this
is the same list Python's stable sort produces). -/
def pySorted (l : List String) : List String :=
  l.foldr pyInsert []

/-- The post-loop group check of `check.py` lines 91–94: every group's
basename list, sorted, must equal `requiredPair`; the first offender
fails. -/
def checkGroups : List (String × List String) → Except RunErr Unit
  | [] => .ok ()
  | (p, fs) :: rest =>
    if pySorted fs = requiredPair then checkGroups rest
    else .error (.incompleteGroup p)

/-- `check_touched_files` (`check.py` lines 56–97): classify every
line, run the group check, and return the attestation stems (dict keys
in insertion order) and the touched builder-key set. -/
def checkTouchedFiles (lines : List String) : Except RunErr (List String × List String) :=
  match classifyLoop ⟨[], []⟩ lines with
  | .error e => .error e
  | .ok st =>
    match checkGroups st.attestations with
    | .error e => .error e
    | .ok _ => .ok (st.attestations.map Prod.fst, st.builderKeys)

/-- Python `str.isascii()`: every character has a code point below 128
(`check.py` line 27). -/
def isAsciiStr (s : String) : Bool :=
  s.data.all (fun c => c.val < 128)

/-- The external OpenPGP capability used by `check_attestations`
(`import gnupg`), abstracted over its observable interface: reading a
file from disk, the return code / key list / not-imported count an
key-import of a key-file content reports, and the key identities of the
signature records `verify_data` reports for a detached-signature file
and the signed data. Keys that a signature could verify against live in
a keyring, threaded separately (see `checkOneAttestation`). -/
structure GpgEnv where
  readFile : String → Option String
  importRc : String → Int
  keysIn : String → List Nat
  notImported : String → Nat
  sigsOf : String → String → List Nat

/-- The loop body of `check_attestations` (`check.py` lines 13–50) for
one attestation stem `att`. `kr` is the keyring of the default gnupg
home directory: the source builds `gnupg.GPG()` with no `gnupghome`
(line 14), so every iteration — and every run — operates on the same
persistent keyring; importing a key adds it there, and `verify_data`
consults everything in it. Returns the updated keyring and the
builder-key set after `discard`. -/
def checkOneAttestation (env : GpgEnv) (kr : List Nat) (att : String)
    (bks : List String) : Except RunErr (List Nat × List String) :=
  match derivedKey att with
  | none => .error .pyIndexError
  | some builderKey =>
    let bks' := bks.filter (fun k => k ≠ builderKey)
    match env.readFile builderKey with
    | none => .error (.keyNotFound att builderKey)
    | some content =>
      if isAsciiStr content then
        let ks := env.keysIn content
        let kr' := kr ++ ks
        if env.importRc content = 0 then
          if ks.length = 1 ∧ env.notImported content = 0 then
            match env.readFile att with
            | none => .error .manifestNotFound
            | some data =>
              let sigs := env.sigsOf (att ++ ".asc") data
              if !sigs.isEmpty && sigs.all (fun k => kr'.contains k) then
                if sigs.length = 1 then .ok (kr', bks')
                else .error (.sigCount att builderKey sigs.length)
              else .error (.sigInvalid att builderKey)
          else .error (.keyImportCount builderKey (env.keysIn content).length
            (env.notImported content))
        else .error (.keyImportFailed builderKey)
      else .error .malformedKey

/-- The `for att in attestations` loop of `check_attestations`,
threading the shared keyring and the builder-key set; returns both on
completion. -/
def attLoop (env : GpgEnv) : List String → List String → List Nat →
    Except RunErr (List String × List Nat)
  | [], bks, kr => .ok (bks, kr)
  | a :: rest, bks, kr =>
    match checkOneAttestation env kr a bks with
    | .error e => .error e
    | .ok (kr', bks') => attLoop env rest bks' kr'

/-- `check_attestations` (`check.py` lines 12–53): run the loop, then
fail with the orphan-key diagnostic when touched builder keys remain
unconsumed. -/
def checkAttestations (env : GpgEnv) (atts bks : List String) (kr : List Nat) :
    Except RunErr Unit :=
  match attLoop env atts bks kr with
  | .error e => .error e
  | .ok (bks', _) => if bks'.isEmpty then .ok () else .error (.orphanKeys bks')

/-- The driver (`check.py` lines 99–115) after the external `git diff`:
classify the touched lines, then verify the attestations. `kr` is the
content of the persistent default keyring when the run starts. -/
def runCheck (env : GpgEnv) (kr : List Nat) (lines : List String) : Except RunErr Unit :=
  match checkTouchedFiles lines with
  | .error e => .error e
  | .ok (atts, bks) => checkAttestations env atts bks kr

/-- Modelled from the spec: the Attestation Verifier of spec §4.2
step 4 and §5, which demand that each attestation's key be imported
into a fresh, isolated verification context so that key material from
one builder is never consulted when verifying another builder's
signature. Identical to `checkOneAttestation` except that signature
verification consults only the keys imported from this attestation's
own builder-key file. This definition follows the spec's words, for
comparison against the source's shared-keyring behaviour; it is not in
`check.py`. -/
def checkOneAttestationIsolated (env : GpgEnv) (att : String)
    (bks : List String) : Except RunErr (List String) :=
  match derivedKey att with
  | none => .error .pyIndexError
  | some builderKey =>
    let bks' := bks.filter (fun k => k ≠ builderKey)
    match env.readFile builderKey with
    | none => .error (.keyNotFound att builderKey)
    | some content =>
      if isAsciiStr content then
        let ks := env.keysIn content
        if env.importRc content = 0 then
          if ks.length = 1 ∧ env.notImported content = 0 then
            match env.readFile att with
            | none => .error .manifestNotFound
            | some data =>
              let sigs := env.sigsOf (att ++ ".asc") data
              if !sigs.isEmpty && sigs.all (fun k => ks.contains k) then
                if sigs.length = 1 then .ok bks'
                else .error (.sigCount att builderKey sigs.length)
              else .error (.sigInvalid att builderKey)
          else .error (.keyImportCount builderKey (env.keysIn content).length
            (env.notImported content))
        else .error (.keyImportFailed builderKey)
      else .error .malformedKey

/-- Modelled from the spec: the verifier loop and orphan check under
the isolated-context discipline of spec §4.2/§5. -/
def checkAttestationsIsolated (env : GpgEnv) : List String → List String →
    Except RunErr Unit
  | [], bks => if bks.isEmpty then .ok () else .error (.orphanKeys bks)
  | a :: rest, bks =>
    match checkOneAttestationIsolated env a bks with
    | .error e => .error e
    | .ok bks' => checkAttestationsIsolated env rest bks'

/-- Modelled from the spec: the whole run under the isolated-context
discipline. -/
def runCheckIsolated (env : GpgEnv) (lines : List String) : Except RunErr Unit :=
  match checkTouchedFiles lines with
  | .error e => .error e
  | .ok (atts, bks) => checkAttestationsIsolated env atts bks

/-! ## Sorting lemmas for the group check -/

theorem pyInsert_perm (x : String) (l : List String) : (pyInsert x l).Perm (x :: l) := by
  induction l with
  | nil => exact List.Perm.refl _
  | cons y ys ih =>
    unfold pyInsert
    split
    · exact List.Perm.refl _
    · exact (ih.cons y).trans (List.Perm.swap x y ys)

theorem pySorted_perm (l : List String) : (pySorted l).Perm l := by
  induction l with
  | nil => exact List.Perm.refl _
  | cons x xs ih => exact (pyInsert_perm x (pySorted xs)).trans (ih.cons x)

theorem perm_pair_cases {α : Type} {a b : α} {fs : List α} (h : fs.Perm [a, b]) :
    fs = [a, b] ∨ fs = [b, a] := by
  have hlen : fs.length = 2 := by simpa using h.length_eq
  match fs, hlen, h with
  | [x, y], _, h =>
    have hx : x ∈ ([a, b] : List α) := h.mem_iff.mp (by simp)
    rcases List.mem_pair.mp hx with h1 | h1
    · rw [h1] at h
      have h2 : [y].Perm [b] := h.cons_inv
      exact Or.inl (by rw [h1, List.perm_singleton.mp h2])
    · rw [h1] at h
      have h2 : [y].Perm [a] := (h.trans (List.Perm.swap b a [])).cons_inv
      exact Or.inr (by rw [h1, List.perm_singleton.mp h2])

/-- The comparison of `check.py` line 93 holds exactly when the recorded
basenames are a permutation of the required pair (each exactly once). -/
theorem pySorted_eq_requiredPair_iff (fs : List String) :
    pySorted fs = requiredPair ↔ fs.Perm requiredPair := by
  constructor
  · intro h
    exact (pySorted_perm fs).symm.trans (h ▸ List.Perm.refl _)
  · intro h
    rcases perm_pair_cases h with rfl | rfl
    · rfl
    · rfl

/-! ## Concrete environments and inputs used by the per-claim theorems -/

/-- Number of attestation stems whose derived key path is `k`. -/
def consumersOf (atts : List String) (k : String) : Nat :=
  (atts.filter (fun a => derivedKey a == some k)).length

/-- A commit in which the same builder key is consumed by two
attestations from two namespaces, both of which verify. -/
def envC1 : GpgEnv where
  readFile := fun p =>
    if p = "builder-keys/alice.asc" then some "ALICEKEY"
    else if p = "r1/alice/noncodesigned.SHA256SUMS" then some "DATA1"
    else if p = "r2/alice/noncodesigned.SHA256SUMS" then some "DATA2"
    else none
  importRc := fun _ => 0
  keysIn := fun c => if c = "ALICEKEY" then [1] else []
  notImported := fun _ => 0
  sigsOf := fun sig _ =>
    if sig = "r1/alice/noncodesigned.SHA256SUMS.asc" then [1]
    else if sig = "r2/alice/noncodesigned.SHA256SUMS.asc" then [1]
    else []

/-- Touched lines: two complete attestation pairs by the same builder
plus that builder's key. -/
def linesC1 : List String :=
  ["A\tr1/alice/noncodesigned.SHA256SUMS",
   "A\tr1/alice/noncodesigned.SHA256SUMS.asc",
   "A\tr2/alice/noncodesigned.SHA256SUMS",
   "A\tr2/alice/noncodesigned.SHA256SUMS.asc",
   "A\tbuilder-keys/alice.asc"]

/-- A commit with two builders where Bob's attestation is in fact
signed by Alice's key (key 1): Bob's key file contains only key 2, yet
the signature record for Bob's manifest names key 1. -/
def envC4 : GpgEnv where
  readFile := fun p =>
    if p = "builder-keys/alice.asc" then some "ALICEKEY"
    else if p = "builder-keys/bob.asc" then some "BOBKEY"
    else if p = "a/alice/noncodesigned.SHA256SUMS" then some "ADATA"
    else if p = "b/bob/noncodesigned.SHA256SUMS" then some "BDATA"
    else none
  importRc := fun _ => 0
  keysIn := fun c =>
    if c = "ALICEKEY" then [1] else if c = "BOBKEY" then [2] else []
  notImported := fun _ => 0
  sigsOf := fun sig _ =>
    if sig = "a/alice/noncodesigned.SHA256SUMS.asc" then [1]
    else if sig = "b/bob/noncodesigned.SHA256SUMS.asc" then [1]
    else []

/-- Touched lines for the two-builder commit. -/
def linesC4 : List String :=
  ["A\ta/alice/noncodesigned.SHA256SUMS",
   "A\ta/alice/noncodesigned.SHA256SUMS.asc",
   "A\tb/bob/noncodesigned.SHA256SUMS",
   "A\tb/bob/noncodesigned.SHA256SUMS.asc",
   "A\tbuilder-keys/alice.asc",
   "A\tbuilder-keys/bob.asc"]

/-- The round-trip commit of the spec with a valid attestation pair and
a matching builder key whose signature verifies. -/
def envC5 : GpgEnv where
  readFile := fun p =>
    if p = "builder-keys/alice.asc" then some "ALICEKEY"
    else if p = "release/alice/noncodesigned.SHA256SUMS" then some "DATA"
    else none
  importRc := fun _ => 0
  keysIn := fun c => if c = "ALICEKEY" then [1] else []
  notImported := fun _ => 0
  sigsOf := fun sig _ =>
    if sig = "release/alice/noncodesigned.SHA256SUMS.asc" then [1] else []

/-- Touched lines for the round-trip commit, with the builder key at
status `M` instead of `A`. -/
def linesC5 : List String :=
  ["A\trelease/alice/noncodesigned.SHA256SUMS",
   "A\trelease/alice/noncodesigned.SHA256SUMS.asc",
   "M\tbuilder-keys/alice.asc"]

/-- A disk state where the builder key imports cleanly but the
attestation manifest itself is absent. -/
def envC7 : GpgEnv where
  readFile := fun p => if p = "builder-keys/alice.asc" then some "K" else none
  importRc := fun _ => 0
  keysIn := fun c => if c = "K" then [7] else []
  notImported := fun _ => 0
  sigsOf := fun _ _ => []

/-! ## Claim theorems -/

/-- C1, counterexample: the claim says a builder key consumed by more
than one attestation fails the run. In `linesC1` the key
`builder-keys/alice.asc` is consumed by two attestation stems
(`consumersOf … = 2`), yet the run succeeds: `builder_keys.discard` is
idempotent, so duplicate consumption is not detected. -/
theorem c1_counterexample :
    checkTouchedFiles linesC1 =
      .ok (["r1/alice/noncodesigned.SHA256SUMS", "r2/alice/noncodesigned.SHA256SUMS"],
           ["builder-keys/alice.asc"]) ∧
    consumersOf ["r1/alice/noncodesigned.SHA256SUMS", "r2/alice/noncodesigned.SHA256SUMS"]
      "builder-keys/alice.asc" = 2 ∧
    runCheck envC1 [] linesC1 = .ok () :=
  ⟨by rfl, by rfl, by rfl⟩

/-- C4: the code constructs `gnupg.GPG()` without `gnupghome`, so every
attestation shares the persistent default keyring. In `envC4`, Bob's
attestation is signed by key 1 — Alice's key, absent from Bob's key
file (`keysIn "BOBKEY" = [2]`) — yet the run succeeds, because key 1
was imported into the shared keyring while checking Alice's
attestation. Under the spec's isolated-context discipline the same run
fails with `SignatureInvalid` on Bob's attestation. -/
theorem c4_shared_keyring_contamination :
    runCheck envC4 [] linesC4 = .ok () ∧
    envC4.sigsOf "b/bob/noncodesigned.SHA256SUMS.asc" "BDATA" = [1] ∧
    envC4.keysIn "BOBKEY" = [2] ∧
    runCheckIsolated envC4 linesC4 =
      .error (.sigInvalid "b/bob/noncodesigned.SHA256SUMS" "builder-keys/bob.asc") :=
  ⟨by rfl, by rfl, by rfl, by rfl⟩

/-- C5, counterexample: the claim says the round-trip commit with the
builder key at status `M` fails with `InvalidFileStatus`; in fact the
classifier allows statuses `A` and `M` for builder-key files
(`check.py` line 84), and the run succeeds. -/
theorem c5_counterexample : runCheck envC5 [] linesC5 = .ok () := by
  rfl

/-- C7, counterexample: with the manifest absent the run does fail with
the manifest-not-found error, but its diagnostic is the constant string
`"File does not exist"` (`check.py` line 42), which does not name the
offending path. -/
theorem c7_counterexample :
    checkAttestations envC7 ["release/alice/noncodesigned.SHA256SUMS"] [] [] =
      .error .manifestNotFound ∧
    containsStr manifestNotFoundMessage "release/alice/noncodesigned.SHA256SUMS" = false :=
  ⟨by rfl, by rfl⟩

/-- C3: the dots of the attestation pattern are unescaped wildcards, so
the path `release/alice/noncodesignedxSHA256SUMS` — whose basename does
not literally end in `.SHA256SUMS` or `.SHA256SUMS.asc`, and which is
not a builder-key path — is still classified as an attestation
candidate: the run fails with the incomplete-group diagnostic for that
stem, not with the unrecognized-file diagnostic the claim requires. -/
theorem c3_wildcard_dot_classified_as_attestation :
    reMatchAtt "release/alice/noncodesignedxSHA256SUMS" = true ∧
    checkTouchedFiles ["A\trelease/alice/noncodesignedxSHA256SUMS"] =
      .error (.incompleteGroup "release/alice/noncodesignedxSHA256SUMS") :=
  ⟨by rfl, by rfl⟩

/-- C2: the group check accepts its input exactly when every recorded
group's basename collection is, as a multiset, exactly
`{noncodesigned.SHA256SUMS, noncodesigned.SHA256SUMS.asc}` — any
subset, superset or duplicate is rejected — and every rejection is the
incomplete-group failure naming an offending group. -/
theorem checkGroups_ok_iff (gs : List (String × List String)) :
    (checkGroups gs = .ok () ↔ ∀ p fs, (p, fs) ∈ gs → fs.Perm requiredPair) ∧
    (∀ e, checkGroups gs = .error e →
      ∃ p fs, (p, fs) ∈ gs ∧ e = .incompleteGroup p ∧ ¬ fs.Perm requiredPair) := by
  induction gs with
  | nil =>
    refine ⟨by simp [checkGroups], ?_⟩
    intro e he
    simp [checkGroups] at he
  | cons hd rest ih =>
    obtain ⟨p, fs⟩ := hd
    by_cases h : pySorted fs = requiredPair
    · have hperm := (pySorted_eq_requiredPair_iff fs).mp h
      have hstep : checkGroups ((p, fs) :: rest) = checkGroups rest := by
        simp [checkGroups, h]
      constructor
      · rw [hstep]
        constructor
        · intro hok q l hmem
          rcases List.mem_cons.mp hmem with heq | hmem'
          · cases heq
            exact hperm
          · exact ih.1.mp hok q l hmem'
        · intro hall
          exact ih.1.mpr (fun q l hm => hall q l (List.mem_cons_of_mem _ hm))
      · intro e he
        rw [hstep] at he
        obtain ⟨q, l, hm, he', hnp⟩ := ih.2 e he
        exact ⟨q, l, List.mem_cons_of_mem _ hm, he', hnp⟩
    · have herr : checkGroups ((p, fs) :: rest) = .error (.incompleteGroup p) := by
        simp [checkGroups, h]
      have hnperm : ¬ fs.Perm requiredPair :=
        fun hp => h ((pySorted_eq_requiredPair_iff fs).mpr hp)
      constructor
      · rw [herr]
        constructor
        · intro hok
          cases hok
        · intro hall
          exact absurd (hall p fs (List.mem_cons_self _ _)) hnperm
      · intro e he
        rw [herr] at he
        have he' : e = RunErr.incompleteGroup p := by
          cases he
          rfl
        exact ⟨p, fs, List.mem_cons_self _ _, he', hnperm⟩

/-- Witness for C2: a group holding exactly the required pair (in the
other order) is accepted. -/
theorem checkGroups_ok_iff_witness :
    checkGroups [("x/y/noncodesigned.SHA256SUMS",
      ["noncodesigned.SHA256SUMS.asc", "noncodesigned.SHA256SUMS"])] = .ok () :=
  (checkGroups_ok_iff _).1.mpr (by
    intro p fs hmem
    rw [List.mem_singleton] at hmem
    cases hmem
    exact (pySorted_eq_requiredPair_iff _).mp (by rfl))

/-- C6: a touched file that is not ignored and matches the attestation
pattern is rejected with the invalid-status failure whenever its git
status is not exactly `A` (`check.py` lines 71–72). -/
theorem classifyPair_att_requires_A (st : ClassifyState) (status file : String)
    (hig : isIgnored file = false) (hatt : reMatchAtt file = true)
    (hst : status ≠ "A") :
    classifyPair st status file = .error (.invalidAttStatus status file) := by
  simp [classifyPair, hig, hatt, hst]

/-- Witness for C6: a modified attestation manifest is rejected. -/
theorem classifyPair_att_requires_A_witness :
    classifyPair ⟨[], []⟩ "M" "a/b/noncodesigned.SHA256SUMS" =
      .error (.invalidAttStatus "M" "a/b/noncodesigned.SHA256SUMS") :=
  classifyPair_att_requires_A ⟨[], []⟩ "M" "a/b/noncodesigned.SHA256SUMS"
    (by rfl) (by rfl) (by decide)

/-- C9: a touched line whose tab-split does not have exactly two parts
(zero tabs, or two or more tabs as in a rename record) aborts the
classifier with the uncaught value-unpacking error of `check.py`
line 61, not with any policy diagnostic. -/
theorem checkTouchedFiles_valueError (l : String) (rest : List String)
    (h : (pySplit '\t' l).length ≠ 2) :
    checkTouchedFiles (l :: rest) = .error (.pyValueError l) := by
  have hstep : classifyStep ⟨[], []⟩ l = .error (.pyValueError l) := by
    unfold classifyStep
    split
    · next status file heq => exact absurd (by rw [heq]; rfl) h
    · rfl
  simp [checkTouchedFiles, classifyLoop, hstep]

/-- Witness for C9: a git rename record with two tabs. -/
theorem checkTouchedFiles_valueError_witness :
    checkTouchedFiles ["R100\told\tnew"] = .error (.pyValueError "R100\told\tnew") :=
  checkTouchedFiles_valueError "R100\told\tnew" [] (by decide)

/-- A touched line that parses into a `(status, file)` pair whose file
starts with one of the ignored prefixes. -/
def lineIgnored (l : String) : Bool :=
  match pySplit '\t' l with
  | [_, f] => isIgnored f
  | _ => false

theorem classifyStep_ignored (st : ClassifyState) (l : String)
    (h : lineIgnored l = true) : classifyStep st l = .ok st := by
  unfold lineIgnored at h
  unfold classifyStep
  rcases hm : pySplit '\t' l with _ | ⟨a, _ | ⟨b, _ | ⟨c, t⟩⟩⟩ <;> rw [hm] at h <;>
    simp only [] at h ⊢
  · exact absurd h (by simp)
  · exact absurd h (by simp)
  · simp [classifyPair, h]
  · exact absurd h (by simp)

theorem classifyLoop_ignored (lines : List String) :
    ∀ st : ClassifyState, (∀ l ∈ lines, lineIgnored l = true) →
      classifyLoop st lines = .ok st := by
  induction lines with
  | nil => intro st _; rfl
  | cons l ls ih =>
    intro st h
    have hstep := classifyStep_ignored st l (h l (List.mem_cons_self _ _))
    have hrest := ih st (fun x hx => h x (List.mem_cons_of_mem _ hx))
    simp [classifyLoop, hstep, hrest]

/-- C8: a commit whose touched lines all name ignored-prefix paths
classifies to an empty attestation mapping and an empty builder-key
set, and the whole run succeeds for every environment and every
initial keyring. -/
theorem run_succeeds_on_ignored_only (lines : List String)
    (h : ∀ l ∈ lines, lineIgnored l = true) :
    checkTouchedFiles lines = .ok ([], []) ∧
    ∀ (env : GpgEnv) (kr : List Nat), runCheck env kr lines = .ok () := by
  have hloop := classifyLoop_ignored lines ⟨[], []⟩ h
  have hctf : checkTouchedFiles lines = .ok ([], []) := by
    simp [checkTouchedFiles, hloop, checkGroups]
  refine ⟨hctf, fun env kr => ?_⟩
  simp [runCheck, hctf, checkAttestations, attLoop]

/-- Witness for C8: a commit touching only `README.md` and a file under
`contrib/`. -/
theorem run_succeeds_on_ignored_only_witness :
    checkTouchedFiles ["A\tREADME.md", "M\tcontrib/foo.sh"] = .ok ([], []) ∧
    runCheck envC7 [] ["A\tREADME.md", "M\tcontrib/foo.sh"] = .ok () :=
  ⟨(run_succeeds_on_ignored_only _ (by decide)).1,
   (run_succeeds_on_ignored_only _ (by decide)).2 envC7 []⟩

/-! ## Path-shape facts about the attestation matcher (towards C10) -/

theorem splitOnChar_ne_nil (sep : Char) (cs : List Char) : splitOnChar sep cs ≠ [] := by
  induction cs with
  | nil => simp [splitOnChar]
  | cons c cs ih =>
    unfold splitOnChar
    split
    · simp
    · split
      · simp
      · simp

theorem splitOnChar_length (sep : Char) (cs : List Char) :
    (splitOnChar sep cs).length = cs.count sep + 1 := by
  induction cs with
  | nil => simp [splitOnChar]
  | cons c cs ih =>
    unfold splitOnChar
    split
    · next h =>
      subst h
      simp only [List.length_cons, ih, List.count_cons]
      simp
    · next h =>
      split
      · next hm => exact absurd hm (splitOnChar_ne_nil sep cs)
      · next p ps hm =>
        rw [hm] at ih
        simp only [List.length_cons] at ih
        rw [List.count_cons]
        have hb : (c == sep) = false := by simp [h]
        rw [hb]
        simp only [List.length_cons, if_neg (by simp : ¬ (false = true))]
        omega

theorem isSegs3_count (A : List Char) (h : isSegs3 A = true) : A.count '/' = 2 := by
  unfold isSegs3 at h
  rw [Bool.and_eq_true] at h
  have hlen := h.1
  rw [beq_iff_eq, splitOnChar_length] at hlen
  omega

theorem matchesAttCore_segs (cs : List Char) (h : matchesAttCore cs = true) :
    isSegs3 (cs.take (cs.length - 11)) = true := by
  simp only [matchesAttCore] at h
  cases hb : isSegs3 (cs.take (cs.length - 11)) with
  | false => rw [hb] at h; simp at h
  | true => rfl

theorem matchesAttCore_count (cs : List Char) (h : matchesAttCore cs = true) :
    2 ≤ cs.count '/' := by
  have hc := isSegs3_count _ (matchesAttCore_segs cs h)
  have hsub := (List.take_sublist (cs.length - 11) cs).count_le '/'
  omega

theorem matchesAtt_count (cs : List Char) (h : matchesAtt cs = true) :
    2 ≤ cs.count '/' := by
  simp only [matchesAtt] at h
  rw [Bool.or_eq_true] at h
  rcases h with h | h
  · exact matchesAttCore_count cs h
  · have hcore : matchesAttCore (cs.take (cs.length - 4)) = true := by
      cases hb : matchesAttCore (cs.take (cs.length - 4)) with
      | false => rw [hb] at h; simp at h
      | true => rfl
    have hc := matchesAttCore_count _ hcore
    have hsub := (List.take_sublist (cs.length - 4) cs).count_le '/'
    omega

theorem reMatchAtt_count (s : String) (h : reMatchAtt s = true) :
    2 ≤ s.data.count '/' := by
  unfold reMatchAtt at h
  have h1 := matchesAtt_count _ h
  unfold dropFinalNewline at h1
  split at h1
  · have hsub := (List.dropLast_sublist s.data).count_le '/'
    omega
  · exact h1

/-- A matching attestation path keeps at least two slashes after the
`.asc` suffix strip: the stripped characters contain no `'/'`. -/
theorem stem_count (f : String) (h : reMatchAtt f = true) :
    2 ≤ (removeSuffix f ".asc").data.count '/' := by
  have hf := reMatchAtt_count f h
  unfold removeSuffix
  split
  · next hsuf =>
    obtain ⟨pre, hpre⟩ := List.isSuffixOf_iff_suffix.mp hsuf
    show 2 ≤ ((f.data.take (f.data.length - (".asc" : String).data.length)).count '/')
    rw [← hpre]
    have hlen : (pre ++ (".asc" : String).data).length - (".asc" : String).data.length
        = pre.length := by
      simp [List.length_append]
    rw [hlen, List.take_left]
    rw [← hpre, List.count_append] at hf
    have hz : ((".asc" : String).data).count '/' = 0 := rfl
    omega
  · exact hf

theorem addToGroup_keys (gs : List (String × List String)) (p b q : String)
    (h : q ∈ (addToGroup gs p b).map Prod.fst) :
    q ∈ gs.map Prod.fst ∨ q = p := by
  induction gs with
  | nil =>
    simp [addToGroup] at h
    exact Or.inr h
  | cons hd rest ih =>
    obtain ⟨r, fs⟩ := hd
    unfold addToGroup at h
    split at h
    · next heq =>
      simp only [List.map_cons, List.mem_cons] at h ⊢
      exact Or.inl h
    · simp only [List.map_cons, List.mem_cons] at h ⊢
      rcases h with h | h
      · exact Or.inl (Or.inl h)
      · rcases ih h with h' | h'
        · exact Or.inl (Or.inr h')
        · exact Or.inr h'

theorem classifyPair_keys (st st' : ClassifyState) (status file : String)
    (h : classifyPair st status file = .ok st') (q : String)
    (hq : q ∈ st'.attestations.map Prod.fst) :
    q ∈ st.attestations.map Prod.fst ∨
      (reMatchAtt file = true ∧ q = removeSuffix file ".asc") := by
  unfold classifyPair at h
  split at h
  · cases h
    exact Or.inl hq
  · split at h
    · next hatt =>
      split at h
      · cases h
        rcases addToGroup_keys _ _ _ _ hq with h' | h'
        · exact Or.inl h'
        · exact Or.inr ⟨hatt, h'⟩
      · cases h
    · split at h
      · split at h
        · cases h
          exact Or.inl hq
        · cases h
      · cases h

theorem classifyStep_keys (st st' : ClassifyState) (l : String)
    (h : classifyStep st l = .ok st') (q : String)
    (hq : q ∈ st'.attestations.map Prod.fst) :
    q ∈ st.attestations.map Prod.fst ∨ 2 ≤ q.data.count '/' := by
  unfold classifyStep at h
  split at h
  · next status file heq =>
    rcases classifyPair_keys st st' status file h q hq with h' | ⟨hm, hq'⟩
    · exact Or.inl h'
    · exact Or.inr (hq' ▸ stem_count file hm)
  · cases h

theorem classifyLoop_keys (lines : List String) :
    ∀ st st' : ClassifyState, classifyLoop st lines = .ok st' →
      (∀ q ∈ st.attestations.map Prod.fst, 2 ≤ q.data.count '/') →
      ∀ q ∈ st'.attestations.map Prod.fst, 2 ≤ q.data.count '/' := by
  induction lines with
  | nil =>
    intro st st' h hst q hq
    cases h
    exact hst q hq
  | cons l ls ih =>
    intro st st' h hst q hq
    unfold classifyLoop at h
    split at h
    · cases h
    · next st1 heq =>
      refine ih st1 st' h ?_ q hq
      intro r hr
      rcases classifyStep_keys st st1 l heq r hr with h' | h'
      · exact hst r h'
      · exact h'

/-- C10: every attestation stem the classifier returns has at least two
`'/'` separators (at least three path segments), so the verifier's
builder derivation `att.split('/')[1]` is defined — never an
`IndexError` — on any stem the classifier can produce. -/
theorem attestation_stems_have_three_segments (lines atts bks : List String)
    (h : checkTouchedFiles lines = .ok (atts, bks)) :
    ∀ att ∈ atts, 2 ≤ att.data.count '/' ∧ (derivedKey att).isSome := by
  unfold checkTouchedFiles at h
  split at h
  · cases h
  · next st hloop =>
    split at h
    · cases h
    · simp only [Except.ok.injEq, Prod.mk.injEq] at h
      obtain ⟨h1, h2⟩ := h
      subst h1
      intro att hatt
      have hcnt := classifyLoop_keys lines ⟨[], []⟩ st hloop (by simp) att hatt
      refine ⟨hcnt, ?_⟩
      unfold derivedKey pyIndex
      have hlen : 1 < (splitOnChar '/' att.data).length := by
        rw [splitOnChar_length]
        omega
      rw [List.get?_eq_get hlen]
      rfl

/-- Witness for C10: the stem of a complete attestation pair. -/
theorem attestation_stems_witness :
    2 ≤ ("r/w/noncodesigned.SHA256SUMS" : String).data.count '/' ∧
    (derivedKey "r/w/noncodesigned.SHA256SUMS").isSome :=
  attestation_stems_have_three_segments
    ["A\tr/w/noncodesigned.SHA256SUMS", "A\tr/w/noncodesigned.SHA256SUMS.asc"]
    ["r/w/noncodesigned.SHA256SUMS"] [] (by rfl)
    "r/w/noncodesigned.SHA256SUMS" (by simp)

/-! ## Key-consumption accounting of the verifier loop (towards C1) -/

/-- A successful `checkOneAttestation` always discards exactly the key
path derived from the attestation's second segment. -/
theorem checkOneAttestation_bks (env : GpgEnv) (kr : List Nat) (att : String)
    (bks : List String) (kr' : List Nat) (bks' : List String)
    (h : checkOneAttestation env kr att bks = .ok (kr', bks')) :
    ∃ bk, derivedKey att = some bk ∧ bks' = bks.filter (fun k => k ≠ bk) := by
  simp only [checkOneAttestation] at h
  split at h
  · cases h
  · next bk hdk =>
    refine ⟨bk, hdk, ?_⟩
    split at h
    · cases h
    · split at h
      · split at h
        · split at h
          · split at h
            · cases h
            · split at h
              · split at h
                · simp only [Except.ok.injEq, Prod.mk.injEq] at h
                  exact h.2.symm
                · cases h
              · cases h
          · cases h
        · cases h
      · cases h

/-- The verifier loop, when it completes, leaves exactly the touched
keys no attestation's derived key path equals. -/
theorem attLoop_bks (env : GpgEnv) (atts : List String) :
    ∀ (bks : List String) (kr : List Nat) (bksf : List String) (krf : List Nat),
      attLoop env atts bks kr = .ok (bksf, krf) →
      bksf = bks.filter (fun k => !(atts.any (fun a => derivedKey a == some k))) := by
  induction atts with
  | nil =>
    intro bks kr bksf krf h
    simp only [attLoop, Except.ok.injEq, Prod.mk.injEq] at h
    rw [← h.1]
    simp [List.filter_eq_self]
  | cons a rest ih =>
    intro bks kr bksf krf h
    unfold attLoop at h
    split at h
    · cases h
    · next kr1 bks1 heq =>
      obtain ⟨bk, hdk, hbks1⟩ := checkOneAttestation_bks _ _ _ _ _ _ heq
      have hrest := ih bks1 kr1 bksf krf h
      rw [hrest, hbks1, List.filter_filter]
      refine List.filter_congr ?_
      intro k _
      simp only [List.any_cons, hdk, Bool.not_or]
      rw [Bool.and_comm]
      congr 1
      by_cases hk : bk = k
      · subst hk
        simp
      · have hk2 : k ≠ bk := fun hh => hk hh.symm
        simp [hk, hk2]

/-- C1 (amended): given that every attestation passes its own
per-attestation checks (the verifier loop completes), the run succeeds
iff every builder-key file touched in the commit is consumed by at
least one attestation whose derived key path names it; otherwise the
run fails with the orphan-key diagnostic naming exactly the unconsumed
key paths. Consumption by several attestations is allowed: `discard`
is idempotent. -/
theorem checkAttestations_ok_iff_consumed (env : GpgEnv) (atts bks : List String)
    (kr : List Nat) (bksf : List String) (krf : List Nat)
    (h : attLoop env atts bks kr = .ok (bksf, krf)) :
    (checkAttestations env atts bks kr = .ok () ↔
      ∀ k ∈ bks, ∃ a ∈ atts, derivedKey a = some k) ∧
    (checkAttestations env atts bks kr ≠ .ok () →
      checkAttestations env atts bks kr = .error (.orphanKeys bksf) ∧
      ∀ k ∈ bksf, k ∈ bks ∧ ∀ a ∈ atts, derivedKey a ≠ some k) := by
  have hbksf := attLoop_bks env atts bks kr bksf krf h
  have hca : checkAttestations env atts bks kr =
      if bksf.isEmpty then .ok () else .error (.orphanKeys bksf) := by
    unfold checkAttestations
    rw [h]
  have hnil : bksf = [] ↔ ∀ k ∈ bks, ∃ a ∈ atts, derivedKey a = some k := by
    rw [hbksf, List.filter_eq_nil_iff]
    apply forall_congr'
    intro k
    apply imp_congr_right
    intro _
    simp [List.any_eq_true]
  have hmem : ∀ k ∈ bksf, k ∈ bks ∧ ∀ a ∈ atts, derivedKey a ≠ some k := by
    intro k hk
    rw [hbksf, List.mem_filter] at hk
    refine ⟨hk.1, ?_⟩
    have := hk.2
    simp only [Bool.not_eq_true', List.any_eq_false] at this
    intro a ha
    have := this a ha
    simp at this
    exact this
  constructor
  · rw [hca]
    by_cases he : bksf.isEmpty
    · rw [if_pos he]
      rw [List.isEmpty_iff] at he
      constructor
      · intro _
        exact hnil.mp he
      · intro _
        rfl
    · rw [if_neg he]
      constructor
      · intro hfalse
        cases hfalse
      · intro hall
        exact absurd (hnil.mpr hall) (by rwa [List.isEmpty_iff] at he)
  · intro hne
    rw [hca] at hne ⊢
    by_cases he : bksf.isEmpty
    · rw [if_pos he] at hne
      exact absurd rfl hne
    · rw [if_neg he]
      exact ⟨rfl, hmem⟩

/-- One builder, one attestation, everything verifying: used to witness
the amended consumption property at a concrete run. -/
def envW : GpgEnv where
  readFile := fun p =>
    if p = "builder-keys/w.asc" then some "WKEY"
    else if p = "r/w/noncodesigned.SHA256SUMS" then some "WDATA"
    else none
  importRc := fun _ => 0
  keysIn := fun c => if c = "WKEY" then [9] else []
  notImported := fun _ => 0
  sigsOf := fun sig _ => if sig = "r/w/noncodesigned.SHA256SUMS.asc" then [9] else []

/-- Witness for the amended C1: a touched key consumed by its
attestation makes the run succeed. -/
theorem checkAttestations_ok_iff_consumed_witness :
    checkAttestations envW ["r/w/noncodesigned.SHA256SUMS"] ["builder-keys/w.asc"] []
      = .ok () :=
  (checkAttestations_ok_iff_consumed envW ["r/w/noncodesigned.SHA256SUMS"]
    ["builder-keys/w.asc"] [] [] [9] (by rfl)).1.mpr (by
      intro k hk
      rw [List.mem_singleton] at hk
      subst hk
      exact ⟨"r/w/noncodesigned.SHA256SUMS", List.mem_singleton.mpr rfl, by rfl⟩)

/-- C5 (amended): builder-key files may be Added or Modified
(`check.py` line 84): with status `M` classification accepts the key
file and records it, and only a status outside `{A, M}` fails with the
invalid-status diagnostic naming the file. -/
theorem builder_key_status_A_or_M (st : ClassifyState) (status : String)
    (hA : status ≠ "A") (hM : status ≠ "M") :
    classifyPair st "M" "builder-keys/alice.asc" =
      .ok { st with builderKeys := insertKey st.builderKeys "builder-keys/alice.asc" } ∧
    classifyPair st status "builder-keys/alice.asc" =
      .error (.invalidKeyStatus status "builder-keys/alice.asc") := by
  have h1 : isIgnored "builder-keys/alice.asc" = false := by rfl
  have h2 : reMatchAtt "builder-keys/alice.asc" = false := by rfl
  have h3 : reMatchKey "builder-keys/alice.asc" = true := by rfl
  constructor
  · unfold classifyPair
    rw [h1, h2, h3]
    simp
  · unfold classifyPair
    rw [h1, h2, h3]
    simp [hA, hM]

/-- Witness for the amended C5: status `D` on a builder key is
rejected, while `M` is accepted. -/
theorem builder_key_status_A_or_M_witness :
    classifyPair ⟨[], []⟩ "M" "builder-keys/alice.asc" =
      .ok ⟨[], ["builder-keys/alice.asc"]⟩ ∧
    classifyPair ⟨[], []⟩ "D" "builder-keys/alice.asc" =
      .error (.invalidKeyStatus "D" "builder-keys/alice.asc") :=
  builder_key_status_A_or_M ⟨[], []⟩ "D" (by decide) (by decide)

/-- A successful prefix-scan of `listInfix` reflects a real contiguous
occurrence. -/
theorem listInfix_isInfix (pat : List Char) :
    ∀ cs : List Char, listInfix pat cs = true → List.IsInfix pat cs := by
  intro cs
  induction cs with
  | nil =>
    intro h
    unfold listInfix at h
    rw [List.isEmpty_iff] at h
    rw [h]
  | cons c cs ih =>
    intro h
    unfold listInfix at h
    rw [Bool.or_eq_true] at h
    rcases h with h | h
    · exact (List.isPrefixOf_iff_prefix.mp h).isInfix
    · exact List.infix_cons (ih h)

/-- C7 (amended): when the builder-key phase succeeds and the manifest
file is missing on disk, the verifier fails with the
manifest-not-found error, whose diagnostic is the fixed message
`"File does not exist"`; that message contains no `'/'`, so no path —
every attestation stem contains one — can occur in it. -/
theorem manifestNotFound_fixed_message (env : GpgEnv) (kr : List Nat)
    (att bk content : String) (bks : List String)
    (hdk : derivedKey att = some bk)
    (hrf : env.readFile bk = some content)
    (hascii : isAsciiStr content = true)
    (hrc : env.importRc content = 0)
    (hcnt : (env.keysIn content).length = 1)
    (hni : env.notImported content = 0)
    (hm : env.readFile att = none) :
    checkOneAttestation env kr att bks = .error .manifestNotFound ∧
    ∀ p : String, 1 ≤ p.data.count '/' →
      containsStr manifestNotFoundMessage p = false := by
  constructor
  · unfold checkOneAttestation
    rw [hdk]
    simp only [hrf, hascii, hrc, hcnt, hni, hm]
    simp
  · intro p hp
    cases hb : containsStr manifestNotFoundMessage p with
    | false => rfl
    | true =>
      exfalso
      have hinf := listInfix_isInfix p.data manifestNotFoundMessage.data hb
      have hle := hinf.sublist.count_le '/'
      have hz : manifestNotFoundMessage.data.count '/' = 0 := by rfl
      omega

/-- Witness for the amended C7: the concrete missing-manifest run. -/
theorem manifestNotFound_fixed_message_witness :
    checkOneAttestation envC7 [] "release/alice/noncodesigned.SHA256SUMS" [] =
      .error .manifestNotFound ∧
    containsStr manifestNotFoundMessage "release/alice/noncodesigned.SHA256SUMS" = false := by
  have h := manifestNotFound_fixed_message envC7 [] "release/alice/noncodesigned.SHA256SUMS"
    "builder-keys/alice.asc" "K" [] (by rfl) (by rfl) (by rfl) (by rfl) (by rfl) (by rfl)
    (by rfl)
  exact ⟨h.1, h.2 "release/alice/noncodesigned.SHA256SUMS" (by decide)⟩

end GuixSigs
